import Mathlib

/-!
Verification of the `record` package (payload-type registry and dispatch).

The source is a single Go file.  We embed it shallowly:

* Go byte slices become `List Nat` (`Bytes`); `string(payloadType)` is the
  identity on byte contents, so registry keys are the tag bytes themselves.
* `reflect.Type` is modelled by `GoType`: the package only ever manipulates
  named struct types and pointer types (a `Record` interface value holds
  either a struct or a pointer-to-struct).  `AssignableTo` between the
  concrete, non-interface types that occur here is type identity.
* The package-global `payloadTypeRegistry` map becomes an association list
  with Go-map semantics (insertion replaces the entry with the same key).
* `reflect.New` allocates; to reason about freshness and aliasing we thread
  an explicit heap of struct cells, each holding a struct type name and the
  struct's state (its fields, encoded as bytes).
* The marshal/unmarshal methods Go attaches to each named struct type are
  supplied by a `TypeEnv`; the methods of `record.DefaultRecord` are fixed
  by the source and hard-wired via `methodsOf`.
-/

namespace RecordPkg

/-- Go byte slices, as lists of byte values. -/
abbrev Bytes := List Nat

/-- Go `error` values, identified by their message. -/
abbrev GoError := String

/-- Go `copy(dst, src)`: copies `min (len dst) (len src)` elements of `src`
into the front of `dst` and returns the resulting contents of `dst`. -/
def goCopy (dst src : Bytes) : Bytes :=
  src.take dst.length ++ dst.drop src.length

/-- `DefaultRecord` from the source: holds the unprocessed payload bytes. -/
structure DefaultRecord where
  Contents : Bytes
deriving DecidableEq

/-- `func (r *DefaultRecord) MarshalRecord() ([]byte, error)`:
returns `r.Contents, nil`. -/
def DefaultRecord.MarshalRecord (r : DefaultRecord) : Bytes × Option GoError :=
  (r.Contents, none)

/-- `func (r *DefaultRecord) UnmarshalRecord(data []byte) error`:
`r.Contents = make([]byte, len(data)); copy(r.Contents, data); return nil`.
The method mutates the receiver; we return the updated receiver alongside
the (always-nil) error. -/
def DefaultRecord.UnmarshalRecord (r : DefaultRecord) (data : Bytes) :
    DefaultRecord × Option GoError :=
  ({ r with Contents := goCopy (List.replicate data.length 0) data }, none)

/-- The fragment of `reflect.Type` the package uses: named struct types and
pointer types.  Type identity is structural equality. -/
inductive GoType where
  | struct (name : String)
  | ptr (elem : GoType)
deriving DecidableEq

/-- `func getValueType(i interface{}) reflect.Type`: takes the dynamic type
of `i` and strips exactly one level of pointer indirection if present. -/
def getValueType : GoType → GoType
  | .ptr e => e
  | .struct n => .struct n

/-- `t.AssignableTo(u)` for the concrete (non-interface) types that occur in
this package: assignability is type identity. -/
def assignableTo (t u : GoType) : Bool := t == u

/-- Registry keys: `string(payloadType)` is byte-for-byte the tag. -/
abbrev Tag := Bytes

/-- `payloadTypeRegistry`, a Go map from tag bytes to `reflect.Type`. -/
abbrev Registry := List (Tag × GoType)

/-- Go map assignment `m[k] = t`: replaces the entry with key `k` in place,
or appends a new entry. -/
def registryInsert : Registry → Tag → GoType → Registry
  | [], k, t => [(k, t)]
  | (p :: rest), k, t =>
      if p.1 = k then (k, t) :: rest else p :: registryInsert rest k t

/-- Go map lookup `m[k]` with its `ok` flag, as an `Option`. -/
def registryLookup : Registry → Tag → Option GoType
  | [], _ => none
  | (p :: rest), k => if p.1 = k then some p.2 else registryLookup rest k

/-- The behaviour Go attaches to a named struct type implementing `Record`:
the zero value of the struct (as produced by `reflect.New`), and its
`MarshalRecord` / `UnmarshalRecord` methods acting on the struct state. -/
structure RecordImpl where
  zero : Bytes
  marshal : Bytes → Except GoError Bytes
  unmarshal : Bytes → Bytes → Except GoError Bytes

/-- The name of the fallback type `record.DefaultRecord`. -/
def defaultRecordName : String := "record.DefaultRecord"

/-- The fixed method set of `record.DefaultRecord`, with the struct state
being its `Contents` field.  The zero value has a nil `Contents` slice. -/
def defaultRecordImpl : RecordImpl where
  zero := []
  marshal := fun s =>
    match (DefaultRecord.mk s).MarshalRecord with
    | (bs, none) => .ok bs
    | (_, some e) => .error e
  unmarshal := fun s data =>
    match (DefaultRecord.mk s).UnmarshalRecord data with
    | (r, none) => .ok r.Contents
    | (_, some e) => .error e

/-- Assignment of method sets to the program's named struct types. -/
abbrev TypeEnv := String → RecordImpl

/-- Method-set lookup: the methods of `record.DefaultRecord` are fixed by
the source; all other named types come from the environment. -/
def methodsOf (env : TypeEnv) (n : String) : RecordImpl :=
  if n = defaultRecordName then defaultRecordImpl else env n

/-- The heap of allocated struct cells: each cell holds the dynamic struct
type name and the struct state.  Addresses are indices. -/
structure Heap where
  cells : List (String × Bytes)
deriving DecidableEq

/-- Allocate a fresh cell (`reflect.New` / `&T{}`); returns its address. -/
def Heap.alloc (h : Heap) (n : String) (s : Bytes) : Nat × Heap :=
  (h.cells.length, ⟨h.cells ++ [(n, s)]⟩)

/-- Dereference an address. -/
def Heap.get (h : Heap) (a : Nat) : Option (String × Bytes) :=
  h.cells.get? a

/-- Overwrite the cell at an address (mutation through a pointer). -/
def Heap.set (h : Heap) (a : Nat) (v : String × Bytes) : Heap :=
  ⟨h.cells.set a v⟩

/-- The process state seen by the package: the global registry map and the
heap of allocated record structs. -/
structure GlobalState where
  registry : Registry
  heap : Heap

/-- `func RegisterPayloadType(payloadType []byte, prototype Record)`:
`payloadTypeRegistry[string(payloadType)] = getValueType(prototype)`.
`prototype` is represented by its dynamic type. -/
def RegisterPayloadType (st : GlobalState) (payloadType : Tag) (prototype : GoType) :
    GlobalState :=
  { st with registry := registryInsert st.registry payloadType (getValueType prototype) }

/-- `func blankRecordForPayloadType(payloadType []byte) (Record, error)`:
on a registry miss, returns `&DefaultRecord{}` (a fresh zero-valued
fallback); on a hit, `reflect.New(valueType)` allocates a fresh zero value
of the registered struct type and the result is asserted to `Record`.
If the registered type were itself a pointer type, `reflect.New` would
produce a pointer-to-pointer and the `.(Record)` assertion would panic;
that cannot arise from a `Record` interface prototype, but we model the
panic as an error so the function stays total. -/
def blankRecordForPayloadType (env : TypeEnv) (st : GlobalState) (payloadType : Tag) :
    Except GoError Nat × GlobalState :=
  match registryLookup st.registry payloadType with
  | none =>
      let an := st.heap.alloc defaultRecordName []
      (.ok an.1, { st with heap := an.2 })
  | some (.struct n) =>
      let an := st.heap.alloc n (methodsOf env n).zero
      (.ok an.1, { st with heap := an.2 })
  | some (.ptr _) =>
      (.error "panic: interface conversion", st)

/-- The dynamic dispatch `rec.UnmarshalRecord(data)` on the record pointed
to by `a`: runs the unmarshal method of the cell's dynamic type on its
state; on success the new state is written back through the pointer, on
failure the error is returned unchanged. -/
def callUnmarshalRecord (env : TypeEnv) (st : GlobalState) (a : Nat) (data : Bytes) :
    Option GoError × GlobalState :=
  match st.heap.get a with
  | none => (some "panic: invalid memory address", st)
  | some (n, s) =>
      match (methodsOf env n).unmarshal s data with
      | .error e => (some e, st)
      | .ok s2 => (none, { st with heap := st.heap.set a (n, s2) })

/-- `func unmarshalRecordPayload(payloadType []byte, payloadBytes []byte)
(Record, error)`: obtain a blank record for the tag, then
`rec.UnmarshalRecord(payloadBytes)`; any error is returned with a nil
record, otherwise the populated record is returned. -/
def unmarshalRecordPayload (env : TypeEnv) (st : GlobalState)
    (payloadType : Tag) (payloadBytes : Bytes) :
    Except GoError Nat × GlobalState :=
  match blankRecordForPayloadType env st payloadType with
  | (.error e, st1) => (.error e, st1)
  | (.ok rec, st1) =>
      match callUnmarshalRecord env st1 rec payloadBytes with
      | (some e, st2) => (.error e, st2)
      | (none, st2) => (.ok rec, st2)

/-- `func payloadTypeForRecord(rec Record) ([]byte, bool)`: linear scan of
the registry for an entry whose type is assignable to the dynamic value
type of `rec`; returns the matching key with `true`, or `[]byte{}, false`.
`rec` is represented by its dynamic type; the scan reads the map and
returns the state unchanged. -/
def payloadTypeForRecord (st : GlobalState) (rec : GoType) :
    (Tag × Bool) × GlobalState :=
  match st.registry.find? (fun p => assignableTo p.2 (getValueType rec)) with
  | some p => ((p.1, true), st)
  | none => (([], false), st)

/-! ### Helper lemmas -/

/-- `copy` into a fresh buffer of exactly the source's length reproduces
the source. -/
theorem goCopy_replicate (b : Bytes) :
    goCopy (List.replicate b.length 0) b = b := by
  simp [goCopy]

/-- Looking up a key just inserted finds the inserted type. -/
theorem registryLookup_insert_self (reg : Registry) (k : Tag) (t : GoType) :
    registryLookup (registryInsert reg k t) k = some t := by
  induction reg with
  | nil => simp [registryInsert, registryLookup]
  | cons p rest ih =>
      by_cases h : p.1 = k
      · simp [registryInsert, registryLookup, h]
      · simp [registryInsert, registryLookup, h, ih]

/-- Insertion at one key leaves lookups of any other key unchanged. -/
theorem registryLookup_insert_ne (reg : Registry) (k k2 : Tag) (t : GoType)
    (h : k ≠ k2) :
    registryLookup (registryInsert reg k t) k2 = registryLookup reg k2 := by
  induction reg with
  | nil => simp [registryInsert, registryLookup, h]
  | cons p rest ih =>
      by_cases hp : p.1 = k
      · simp [registryInsert, registryLookup, hp, h]
      · simp [registryInsert, registryLookup, hp, ih]

/-- Dereferencing a freshly allocated cell yields the allocated value. -/
theorem Heap.get_alloc (h : Heap) (n : String) (s : Bytes) :
    (h.alloc n s).2.get (h.alloc n s).1 = some (n, s) := by
  simp [Heap.alloc, Heap.get]

/-- Writing through a pointer does not change the heap's extent. -/
theorem Heap.length_set (h : Heap) (a : Nat) (v : String × Bytes) :
    (h.set a v).cells.length = h.cells.length := by
  simp [Heap.set]

/-- `blankRecordForPayloadType` never writes the registry. -/
theorem blank_preserves_registry (env : TypeEnv) (st : GlobalState) (T : Tag) :
    (blankRecordForPayloadType env st T).2.registry = st.registry := by
  unfold blankRecordForPayloadType
  split <;> rfl

/-- `callUnmarshalRecord` never writes the registry. -/
theorem callUnmarshal_preserves_registry (env : TypeEnv) (st : GlobalState)
    (a : Nat) (data : Bytes) :
    (callUnmarshalRecord env st a data).2.registry = st.registry := by
  unfold callUnmarshalRecord
  split
  · rfl
  · split <;> rfl

/-! ### C1 -/

/-- C1: for every byte sequence `b` (including the empty one) and every
prior state of the fallback record, `UnmarshalRecord b` succeeds, and a
subsequent `MarshalRecord` succeeds and returns exactly `b`. -/
theorem defaultRecord_roundtrip (b : Bytes) (r : DefaultRecord) :
    (r.UnmarshalRecord b).2 = none ∧
    ((r.UnmarshalRecord b).1.MarshalRecord).2 = none ∧
    ((r.UnmarshalRecord b).1.MarshalRecord).1 = b := by
  refine ⟨rfl, rfl, ?_⟩
  simp [DefaultRecord.UnmarshalRecord, DefaultRecord.MarshalRecord, goCopy_replicate]

/-! ### C2 -/

/-- C2: for every tag absent from the registry and every byte sequence
`b`, `unmarshalRecordPayload` succeeds (no "type not found" error) and
returns a `DefaultRecord` whose `Contents` equal `b`. -/
theorem unregistered_tag_decodes (env : TypeEnv) (st : GlobalState)
    (tag : Tag) (b : Bytes)
    (h : registryLookup st.registry tag = none) :
    ∃ a stf, unmarshalRecordPayload env st tag b = (.ok a, stf) ∧
      stf.heap.get a = some (defaultRecordName, b) := by
  refine ⟨st.heap.cells.length,
    ⟨st.registry, ⟨st.heap.cells ++ [(defaultRecordName, b)]⟩⟩, ?_, ?_⟩
  · simp [unmarshalRecordPayload, blankRecordForPayloadType, h, Heap.alloc,
      callUnmarshalRecord, Heap.get, Heap.set, methodsOf, defaultRecordImpl,
      DefaultRecord.UnmarshalRecord, goCopy_replicate,
      List.set_append]
  · simp [Heap.get]

/-- C2 witness. -/
theorem unregistered_tag_decodes_witness :
    ∃ a stf,
      unmarshalRecordPayload (fun _ => defaultRecordImpl) ⟨[], ⟨[]⟩⟩ [1] [2, 3] =
        (.ok a, stf) ∧
      stf.heap.get a = some (defaultRecordName, [2, 3]) :=
  unregistered_tag_decodes (fun _ => defaultRecordImpl) ⟨[], ⟨[]⟩⟩ [1] [2, 3] rfl

/-! ### C3 -/

/-- C3: after `RegisterPayloadType T (ptr (struct f))` (i.e. registering
`&Foo{}`), `blankRecordForPayloadType T` succeeds and yields a freshly
allocated, zero-valued cell of concrete type `f` (not the fallback, since
`f ≠ defaultRecordName`); mutating that instance through its pointer and
calling again yields a distinct address whose cell is again the pristine
zero value of `f`. -/
theorem registered_tag_blank_fresh (env : TypeEnv) (st : GlobalState) (T : Tag)
    (f : String) (v : String × Bytes)
    (hf : f ≠ defaultRecordName) :
    ∃ a1 st1,
      blankRecordForPayloadType env (RegisterPayloadType st T (.ptr (.struct f))) T =
        (.ok a1, st1) ∧
      st1.heap.get a1 = some (f, (env f).zero) ∧
      ∃ a2 st2,
        blankRecordForPayloadType env { st1 with heap := st1.heap.set a1 v } T =
          (.ok a2, st2) ∧
        a1 ≠ a2 ∧
        st2.heap.get a2 = some (f, (env f).zero) := by
  have hz : methodsOf env f = env f := if_neg hf
  have hreg : registryLookup (registryInsert st.registry T (.struct f)) T =
      some (.struct f) := registryLookup_insert_self _ _ _
  refine ⟨st.heap.cells.length,
    ⟨registryInsert st.registry T (.struct f),
      ⟨st.heap.cells ++ [(f, (env f).zero)]⟩⟩, ?_, ?_, ?_⟩
  · simp [RegisterPayloadType, getValueType, blankRecordForPayloadType, hreg,
      Heap.alloc, hz]
  · simp [Heap.get]
  · refine ⟨st.heap.cells.length + 1,
      ⟨registryInsert st.registry T (.struct f),
        ⟨(st.heap.cells ++ [(f, (env f).zero)]).set st.heap.cells.length v ++
          [(f, (env f).zero)]⟩⟩, ?_, ?_, ?_⟩
    · simp [blankRecordForPayloadType, hreg, Heap.alloc, Heap.set, hz]
    · omega
    · have hlen :
          ((st.heap.cells ++ [(f, (env f).zero)]).set st.heap.cells.length v).length =
            st.heap.cells.length + 1 := by simp
      simp only [Heap.get, Heap.set, List.set_append, List.length_append] at hlen ⊢
      simp [List.getElem?_eq_getElem, hlen]
      rw [List.getElem_append_right (by omega)]
      simp

/-- C3 witness. -/
theorem registered_tag_blank_fresh_witness :
    ∃ a1 st1,
      blankRecordForPayloadType (fun _ => defaultRecordImpl)
          (RegisterPayloadType ⟨[], ⟨[]⟩⟩ [7] (.ptr (.struct "Foo"))) [7] =
        (.ok a1, st1) ∧
      st1.heap.get a1 = some ("Foo", defaultRecordImpl.zero) ∧
      ∃ a2 st2,
        blankRecordForPayloadType (fun _ => defaultRecordImpl)
            { st1 with heap := st1.heap.set a1 ("Foo", [9]) } [7] =
          (.ok a2, st2) ∧
        a1 ≠ a2 ∧
        st2.heap.get a2 = some ("Foo", defaultRecordImpl.zero) :=
  registered_tag_blank_fresh (fun _ => defaultRecordImpl) ⟨[], ⟨[]⟩⟩ [7] "Foo"
    ("Foo", [9]) (by decide)

/-! ### C7 -/

/-- C7: for every registry state and all inputs, the dispatch operations
`unmarshalRecordPayload`, `blankRecordForPayloadType` and
`payloadTypeForRecord` leave the registry unchanged. -/
theorem dispatch_preserves_registry (env : TypeEnv) (st : GlobalState)
    (T : Tag) (b : Bytes) (rec : GoType) :
    (blankRecordForPayloadType env st T).2.registry = st.registry ∧
    (unmarshalRecordPayload env st T b).2.registry = st.registry ∧
    (payloadTypeForRecord st rec).2.registry = st.registry := by
  refine ⟨blank_preserves_registry env st T, ?_, ?_⟩
  · unfold unmarshalRecordPayload
    split
    · rename_i e st1 heq
      have h1 : st1.registry = st.registry := by
        have := blank_preserves_registry env st T
        rw [heq] at this
        exact this
      exact h1
    · rename_i rec1 st1 heq
      have h1 : st1.registry = st.registry := by
        have := blank_preserves_registry env st T
        rw [heq] at this
        exact this
      split
      · rename_i e st2 heq2
        have h2 : st2.registry = st1.registry := by
          have := callUnmarshal_preserves_registry env st1 rec1 b
          rw [heq2] at this
          exact this
        rw [h2, h1]
      · rename_i st2 heq2
        have h2 : st2.registry = st1.registry := by
          have := callUnmarshal_preserves_registry env st1 rec1 b
          rw [heq2] at this
          exact this
        rw [h2, h1]
  · unfold payloadTypeForRecord
    split <;> rfl

/-! ### C4 -/

/-- C4: if the type registered for tag `T` fails to unmarshal `x` with
error `e` (starting from its fresh zero value), then
`unmarshalRecordPayload T x` returns exactly `e` and no record. -/
theorem decode_failure_propagates (env : TypeEnv) (st : GlobalState) (T : Tag)
    (x : Bytes) (n : String) (e : GoError)
    (hreg : registryLookup st.registry T = some (.struct n))
    (hfail : (methodsOf env n).unmarshal (methodsOf env n).zero x = .error e) :
    ∃ stf, unmarshalRecordPayload env st T x = (.error e, stf) := by
  refine ⟨⟨st.registry, ⟨st.heap.cells ++ [(n, (methodsOf env n).zero)]⟩⟩, ?_⟩
  simp [unmarshalRecordPayload, blankRecordForPayloadType, hreg, Heap.alloc,
    callUnmarshalRecord, Heap.get, hfail]

/-- C4 witness. -/
theorem decode_failure_propagates_witness :
    ∃ stf,
      unmarshalRecordPayload
        (fun _ => ⟨[], fun s => .ok s, fun _ _ => .error "bad record"⟩)
        ⟨[([1], .struct "Foo")], ⟨[]⟩⟩ [1] [5] =
        (.error "bad record", stf) :=
  decode_failure_propagates
    (fun _ => ⟨[], fun s => .ok s, fun _ _ => .error "bad record"⟩)
    ⟨[([1], .struct "Foo")], ⟨[]⟩⟩ [1] [5] "Foo" "bad record"
    (by decide) rfl

/-! ### C5 -/

/-- C5: registering tag `T` to `&Foo{}` and then to `&Bar{}` makes every
subsequent `blankRecordForPayloadType T` allocate an instance of concrete
type `Bar`, never `Foo`. -/
theorem reregistration_overwrites (env : TypeEnv) (st : GlobalState) (T : Tag)
    (f g : String) (hfg : f ≠ g) :
    ∃ a stf,
      blankRecordForPayloadType env
        (RegisterPayloadType
          (RegisterPayloadType st T (.ptr (.struct f))) T (.ptr (.struct g))) T =
        (.ok a, stf) ∧
      stf.heap.get a = some (g, (methodsOf env g).zero) ∧
      ∀ s, stf.heap.get a ≠ some (f, s) := by
  have hreg : registryLookup
      (registryInsert (registryInsert st.registry T (.struct f)) T (.struct g)) T =
      some (.struct g) := registryLookup_insert_self _ _ _
  refine ⟨st.heap.cells.length,
    ⟨registryInsert (registryInsert st.registry T (.struct f)) T (.struct g),
      ⟨st.heap.cells ++ [(g, (methodsOf env g).zero)]⟩⟩, ?_, ?_, ?_⟩
  · simp [RegisterPayloadType, getValueType, blankRecordForPayloadType, hreg,
      Heap.alloc]
  · simp [Heap.get]
  · intro s hcon
    simp [Heap.get] at hcon
    exact hfg hcon.1.symm

/-- C5 witness. -/
theorem reregistration_overwrites_witness :
    ∃ a stf,
      blankRecordForPayloadType (fun _ => defaultRecordImpl)
        (RegisterPayloadType
          (RegisterPayloadType ⟨[], ⟨[]⟩⟩ [7] (.ptr (.struct "Foo"))) [7]
          (.ptr (.struct "Bar"))) [7] =
        (.ok a, stf) ∧
      stf.heap.get a =
        some ("Bar", (methodsOf (fun _ => defaultRecordImpl) "Bar").zero) ∧
      ∀ s, stf.heap.get a ≠ some ("Foo", s) :=
  reregistration_overwrites (fun _ => defaultRecordImpl) ⟨[], ⟨[]⟩⟩ [7]
    "Foo" "Bar" (by decide)

/-! ### C6 -/

/-- If no entry of the registry has type `t`, inserting `(k, t)` makes the
scan for a type assignable to `t` find exactly the inserted entry. -/
theorem find?_insert_self (reg : Registry) (k : Tag) (t : GoType)
    (h : ∀ p ∈ reg, p.2 ≠ t) :
    (registryInsert reg k t).find? (fun p => assignableTo p.2 t) = some (k, t) := by
  induction reg with
  | nil => simp [registryInsert, assignableTo]
  | cons p rest ih =>
      by_cases hp : p.1 = k
      · simp [registryInsert, hp, assignableTo]
      · have hpt : p.2 ≠ t := h p (by simp)
        have hrest : ∀ q ∈ rest, q.2 ≠ t := fun q hq => h q (by simp [hq])
        simp only [registryInsert, if_neg hp]
        rw [List.find?_cons_of_neg _ (by simp [assignableTo, hpt])]
        exact ih hrest

/-- C6: after registering `&Foo{}` under `T`, with no other registration
of type `Foo`, reverse lookup on a `&Foo{}` instance returns `(T, true)`;
and reverse lookup on an instance compatible with no registered type
returns `found = false` (with the empty tag). -/
theorem reverse_lookup_consistency (st : GlobalState) (T : Tag) (f : String)
    (rec : GoType) :
    ((∀ p ∈ st.registry, p.2 ≠ GoType.struct f) →
      (payloadTypeForRecord (RegisterPayloadType st T (.ptr (.struct f)))
          (.ptr (.struct f))).1 = (T, true)) ∧
    ((∀ p ∈ st.registry, assignableTo p.2 (getValueType rec) = false) →
      (payloadTypeForRecord st rec).1 = ([], false)) := by
  constructor
  · intro h
    have hfind := find?_insert_self st.registry T (.struct f) h
    simp [payloadTypeForRecord, RegisterPayloadType, getValueType, hfind]
  · intro h
    have hfind : st.registry.find? (fun p => assignableTo p.2 (getValueType rec)) =
        none := by
      rw [List.find?_eq_none]
      intro p hp
      simp [h p hp]
    simp [payloadTypeForRecord, hfind]

/-- C6 witness. -/
theorem reverse_lookup_consistency_witness :
    (payloadTypeForRecord
        (RegisterPayloadType ⟨[([2], .struct "Bar")], ⟨[]⟩⟩ [1]
          (.ptr (.struct "Foo"))) (.ptr (.struct "Foo"))).1 = ([1], true) ∧
    (payloadTypeForRecord ⟨[([2], .struct "Bar")], ⟨[]⟩⟩ (.struct "Baz")).1 =
      ([], false) :=
  ⟨(reverse_lookup_consistency ⟨[([2], .struct "Bar")], ⟨[]⟩⟩ [1] "Foo"
      (.struct "Baz")).1 (by decide),
   (reverse_lookup_consistency ⟨[([2], .struct "Bar")], ⟨[]⟩⟩ [1] "Foo"
      (.struct "Baz")).2 (by decide)⟩

/-! ### C8 -/

/-- C8: registering type `f` under tag `t1` and resolving tag `t2` (not
otherwise registered) yields an instance of the registered type exactly
when `t1` and `t2` are byte-for-byte equal; otherwise it yields the
fallback `DefaultRecord`. -/
theorem tag_identity_exact (env : TypeEnv) (st : GlobalState) (t1 t2 : Tag)
    (f : String) (hf : f ≠ defaultRecordName)
    (h2 : registryLookup st.registry t2 = none) :
    ∃ a stf,
      blankRecordForPayloadType env
        (RegisterPayloadType st t1 (.ptr (.struct f))) t2 = (.ok a, stf) ∧
      ((∃ s, stf.heap.get a = some (f, s)) ↔ t1 = t2) ∧
      (t1 ≠ t2 → stf.heap.get a = some (defaultRecordName, [])) := by
  by_cases heq : t1 = t2
  · subst heq
    have hreg : registryLookup (registryInsert st.registry t1 (.struct f)) t1 =
        some (.struct f) := registryLookup_insert_self _ _ _
    refine ⟨st.heap.cells.length,
      ⟨registryInsert st.registry t1 (.struct f),
        ⟨st.heap.cells ++ [(f, (methodsOf env f).zero)]⟩⟩, ?_, ?_, ?_⟩
    · simp [RegisterPayloadType, getValueType, blankRecordForPayloadType, hreg,
        Heap.alloc]
    · simp [Heap.get]
    · intro hne
      exact absurd rfl hne
  · have hl : registryLookup (registryInsert st.registry t1 (.struct f)) t2 =
        none := by
      rw [registryLookup_insert_ne _ _ _ _ heq]
      exact h2
    refine ⟨st.heap.cells.length,
      ⟨registryInsert st.registry t1 (.struct f),
        ⟨st.heap.cells ++ [(defaultRecordName, [])]⟩⟩, ?_, ?_, ?_⟩
    · simp [RegisterPayloadType, getValueType, blankRecordForPayloadType, hl,
        Heap.alloc]
    · constructor
      · rintro ⟨s, hs⟩
        simp [Heap.get] at hs
        exact absurd hs.1.symm hf
      · intro h
        exact absurd h heq
    · intro _
      simp [Heap.get]

/-- C8 witness. -/
theorem tag_identity_exact_witness :
    ∃ a stf,
      blankRecordForPayloadType (fun _ => defaultRecordImpl)
        (RegisterPayloadType ⟨[], ⟨[]⟩⟩ [1] (.ptr (.struct "Foo"))) [2] =
        (.ok a, stf) ∧
      ((∃ s, stf.heap.get a = some ("Foo", s)) ↔ ([1] : Tag) = [2]) ∧
      (([1] : Tag) ≠ [2] → stf.heap.get a = some (defaultRecordName, [])) :=
  tag_identity_exact (fun _ => defaultRecordImpl) ⟨[], ⟨[]⟩⟩ [1] [2] "Foo"
    (by decide) rfl

/-! ### C10 -/

/-- C10: registration is insensitive to the one level of pointer
indirection: registering `&Foo{}` and registering `Foo{}` produce the same
state, `getValueType` agrees on both, `blankRecordForPayloadType` then
returns a pointer to a fresh zero value of `Foo` in either case, and
reverse lookup computes the same answer for `&Foo{}` and `Foo{}`. -/
theorem pointer_indirection_insensitive (env : TypeEnv) (st : GlobalState)
    (T : Tag) (f : String) :
    RegisterPayloadType st T (.ptr (.struct f)) =
      RegisterPayloadType st T (.struct f) ∧
    getValueType (.ptr (.struct f)) = getValueType (.struct f) ∧
    (∃ a stf,
      blankRecordForPayloadType env
        (RegisterPayloadType st T (.ptr (.struct f))) T = (.ok a, stf) ∧
      a = st.heap.cells.length ∧
      stf.heap.get a = some (f, (methodsOf env f).zero) ∧
      blankRecordForPayloadType env
        (RegisterPayloadType st T (.struct f)) T = (.ok a, stf)) ∧
    payloadTypeForRecord st (.ptr (.struct f)) =
      payloadTypeForRecord st (.struct f) := by
  have hreg : registryLookup (registryInsert st.registry T (.struct f)) T =
      some (.struct f) := registryLookup_insert_self _ _ _
  refine ⟨rfl, rfl, ?_, rfl⟩
  refine ⟨st.heap.cells.length,
    ⟨registryInsert st.registry T (.struct f),
      ⟨st.heap.cells ++ [(f, (methodsOf env f).zero)]⟩⟩, ?_, rfl, ?_, ?_⟩
  · simp [RegisterPayloadType, getValueType, blankRecordForPayloadType, hreg,
      Heap.alloc]
  · simp [Heap.get]
  · simp [RegisterPayloadType, getValueType, blankRecordForPayloadType, hreg,
      Heap.alloc]

/-! ### C9 -/

/-- C9: whenever `payloadTypeForRecord` finds no compatible registered
type, the tag returned alongside `false` is the empty byte sequence. -/
theorem payloadTypeForRecord_notfound_empty (st : GlobalState) (rec : GoType)
    (h : ((payloadTypeForRecord st rec).1).2 = false) :
    ((payloadTypeForRecord st rec).1).1 = [] := by
  rcases hf : st.registry.find? (fun p => assignableTo p.2 (getValueType rec)) with _ | p
  · simp [payloadTypeForRecord, hf]
  · simp [payloadTypeForRecord, hf] at h

/-- C9 witness. -/
theorem payloadTypeForRecord_notfound_empty_witness :
    ((payloadTypeForRecord ⟨[], ⟨[]⟩⟩ (.struct "X")).1).1 = [] :=
  payloadTypeForRecord_notfound_empty ⟨[], ⟨[]⟩⟩ (.struct "X") rfl

end RecordPkg
